import Mathlib

/-!
Shallow embedding of the account session orchestrator
(`src/app/logic/accounts.ts` of `react-native-app-test-lib`).

Big-number balances (`BN` / `Wei`) are embedded as `Nat` (balances are
unsigned); balance differences, which may be negative, are computed in `Int`.
`BN.div` is integer division truncating toward zero (`Int.tdiv`);
`BN.toString(10)` is decimal rendering with a leading `-` for negatives,
matching `Int`'s `toString`.  Reactive streams are embedded as the lists of
values they deliver, in delivery order; stateful components (the message
delivery proxy, the session manager's account list, the merged balance map)
are embedded as explicit state-passing functions.
-/

namespace GoNetwork

/-! ## Data model (`AccountBalance`, `AccountBalanceFormatted`) -/

/-- `AccountBalance` (accounts.ts lines 28-33): a block number plus the three
unsigned quantities. -/
structure AccountBalance where
  blockNumber : Nat
  wei : Nat
  gotToken : Nat
  hsToken : Nat
deriving DecidableEq, Repr

/-- The optional per-quantity delta record of `AccountBalanceFormatted`
(accounts.ts lines 39-43); `none` embeds the absent (`undefined`) field. -/
structure Delta where
  eth : Option String := none
  got : Option String := none
  hs : Option String := none
deriving DecidableEq, Repr

/-- `AccountBalanceFormatted` (accounts.ts lines 35-44): the balance plus
human-readable strings and the delta record. -/
structure AccountBalanceFormatted where
  blockNumber : Nat
  wei : Nat
  gotToken : Nat
  hsToken : Nat
  eth : String
  got : String
  hs : String
  delta : Delta
deriving DecidableEq, Repr

/-- Forgetting the formatted part (TypeScript's structural subtyping lets an
`AccountBalanceFormatted` flow into `AccountBalance`-typed positions). -/
def AccountBalanceFormatted.toBalance (b : AccountBalanceFormatted) : AccountBalance :=
  { blockNumber := b.blockNumber, wei := b.wei, gotToken := b.gotToken, hsToken := b.hsToken }

/-- `weiToEthString` (accounts.ts line 96): `w.div(new BN('1000000000000000000')).toString()`.
`BN.div` is integer division truncating toward zero. -/
def weiToEthString (w : Int) : String :=
  toString (Int.tdiv w (10 ^ 18))

/-! ## Balance comparator and deduplication (claim C1) -/

/-- The key list `['gotToken', 'hsToken', 'wei']` iterated by
`isBalanceChanged` (accounts.ts line 274). -/
inductive BalKey where
  | gotToken
  | hsToken
  | wei
deriving DecidableEq, Repr

/-- Field access `a[k]` for the three quantity keys. -/
def AccountBalance.getKey : AccountBalance → BalKey → Nat
  | a, .gotToken => a.gotToken
  | a, .hsToken => a.hsToken
  | a, .wei => a.wei

/-- `isBalanceChanged` (accounts.ts lines 273-275):
`!(['gotToken','hsToken','wei'].reduce((v, k) => v || !a[k].eq(b[k]), false))`.
Despite its name it returns `true` exactly when the two readings are equal on
all three quantities; it is the equality comparator handed to
`distinctUntilChanged`. -/
def isBalanceChanged (a b : AccountBalance) : Bool :=
  !([BalKey.gotToken, BalKey.hsToken, BalKey.wei].foldl
      (fun v k => v || !(a.getKey k == b.getKey k)) false)

/-- RxJS `distinctUntilChanged(comp)` after the first emission: `last` is the
last *emitted* value (RxJS updates its comparison key only on emission); an
incoming value is suppressed exactly when `comp last x` is `true`. -/
def distinctUntilChangedFrom (comp : α → α → Bool) (last : α) : List α → List α
  | [] => []
  | x :: xs =>
    if comp last x then distinctUntilChangedFrom comp last xs
    else x :: distinctUntilChangedFrom comp x xs

/-- RxJS `distinctUntilChanged(comp)` over the whole delivered sequence: the
first value is always emitted. -/
def distinctUntilChanged (comp : α → α → Bool) : List α → List α
  | [] => []
  | x :: xs => x :: distinctUntilChangedFrom comp x xs

/-- The per-account deduplicated balance stream (accounts.ts lines 300-303):
`acc.balance.filter(Boolean).distinctUntilChanged(isBalanceChanged)`, taking
as input the formatted readings delivered by the balance stream. -/
def dedupBalances (xs : List AccountBalanceFormatted) : List AccountBalanceFormatted :=
  distinctUntilChanged (fun a b => isBalanceChanged a.toBalance b.toBalance) xs

/-- Spec-side emission rule for claim C1, written from the spec's words: a
reading is emitted iff there is no last emitted reading yet, or at least one
of the three quantities differs (exact per-quantity equality) from the last
*emitted* reading; `last` tracks the last emitted reading. -/
def specDedup : Option AccountBalanceFormatted → List AccountBalanceFormatted →
    List AccountBalanceFormatted
  | _, [] => []
  | none, x :: xs => x :: specDedup (some x) xs
  | some l, x :: xs =>
    if l.wei = x.wei ∧ l.gotToken = x.gotToken ∧ l.hsToken = x.hsToken then
      specDedup (some l) xs
    else
      x :: specDedup (some x) xs

/-! ## Balance stream and delta formatting (claims C2, C10) -/

/-- The triple of one-shot query results zipped per block
(accounts.ts lines 280-284). -/
structure BalanceQueryResult where
  gotToken : Nat
  hsToken : Nat
  wei : Nat
deriving DecidableEq, Repr

/-- The map step of the balance stream (accounts.ts lines 286-292): spread the
raw balance and attach `eth`/`got`/`hs` strings and an *empty* delta. -/
def formatBalance (bn : Nat) (q : BalanceQueryResult) : AccountBalanceFormatted :=
  { blockNumber := bn
  , wei := q.wei
  , gotToken := q.gotToken
  , hsToken := q.hsToken
  , eth := weiToEthString (q.wei : Int)
  , got := toString q.gotToken
  , hs := toString q.hsToken
  , delta := {} }

/-- The per-account balance stream `balance` (accounts.ts lines 277-295): one
formatted reading per resolved per-block query batch, preceded by the
`startWith(undefined)` placeholder (embedded as `none`). -/
def balance (batches : List (Nat × BalanceQueryResult)) :
    List (Option AccountBalanceFormatted) :=
  none :: batches.map (fun p => some (formatBalance p.1 p.2))

/-- The raw (pre-sign-adjustment) delta record of the merged balances pipeline
(accounts.ts lines 310-313): each quantity's delta is present only when that
quantity changed; the native delta is the wei difference scaled through
`weiToEthString`, token deltas are plain `BN.toString()` renderings. -/
def rawDelta (a b : AccountBalanceFormatted) : Delta :=
  { eth := if !(a.wei == b.wei) then some (weiToEthString ((b.wei : Int) - (a.wei : Int))) else none
  , got := if !(a.gotToken == b.gotToken) then some (toString ((b.gotToken : Int) - (a.gotToken : Int))) else none
  , hs := if !(a.hsToken == b.hsToken) then some (toString ((b.hsToken : Int) - (a.hsToken : Int))) else none }

/-- The sign-adjustment loop (accounts.ts line 315):
`d.delta[k] && d.delta[k][0] !== '-' && (d.delta[k] = '+' + d.delta[k])` —
a present, non-empty (JavaScript-truthy) delta string not starting with `-`
gets a leading `+`. -/
def plusSign : Option String → Option String
  | none => none
  | some s => if s.isEmpty then some s else if s.front = '-' then some s else some ("+" ++ s)

/-- The delta record attached by the merged balances pipeline to the new
reading `b` of a consecutive distinct pair `(a, b)` (accounts.ts lines
308-315). -/
def computeDelta (a b : AccountBalanceFormatted) : Delta :=
  { eth := plusSign (rawDelta a b).eth
  , got := plusSign (rawDelta a b).got
  , hs := plusSign (rawDelta a b).hs }

/-- `Object.assign({}, b, { delta: ... })` (accounts.ts lines 308-314): the new
reading decorated with the computed delta record. -/
def decorate (a b : AccountBalanceFormatted) : AccountBalanceFormatted :=
  { b with delta := computeDelta a b }

/-- Forget the delta record (used to state which tracker reading a decorated
emission reflects). -/
def eraseDelta (b : AccountBalanceFormatted) : AccountBalanceFormatted :=
  { b with delta := {} }

/-! ## Message delivery proxy (claim C3) -/

/-- `P2PMode` (accounts.ts line 70). -/
inductive P2PMode where
  | normal
  | manual
deriving DecidableEq, Repr

/-- The state of `createP2PProxy` (accounts.ts lines 103-128): the mode, the
pending `messages` queue, and — standing for the external transport — the list
of raw `p2p.send(to.toString('hex'), message.serialize(m))` invocations made so
far, in invocation order.  `A` is the address type, `M` the signed-message
type, `B` the serialized-bytes type. -/
structure ProxyState (A M B : Type) where
  mode : P2PMode
  messages : List (A × M)
  rawSent : List (String × B)
deriving Repr

/-- The state created by `createP2PProxy` (accounts.ts lines 104-105): mode
`normal`, empty queue, no raw sends yet. -/
def createP2PProxy (A M B : Type) : ProxyState A M B :=
  { mode := .normal, messages := [], rawSent := [] }

/-- `flush` (accounts.ts lines 107-111): send every queued pair through the
transport's raw primitive in queue (FIFO) order, then clear the queue.
`toHex` embeds `Address.toString('hex')` and `serialize` embeds
`message.serialize`. -/
def flush (toHex : A → String) (serialize : M → B) (s : ProxyState A M B) :
    ProxyState A M B :=
  { s with
    rawSent := s.rawSent ++ s.messages.map (fun p => (toHex p.1, serialize p.2))
  , messages := [] }

/-- `send` (accounts.ts lines 120-125): in `normal` mode forward immediately to
the raw primitive; in `manual` mode append to the pending queue. -/
def proxySend (toHex : A → String) (serialize : M → B) (s : ProxyState A M B)
    (t : A) (msg : M) : ProxyState A M B :=
  if s.mode = .normal then
    { s with rawSent := s.rawSent ++ [(toHex t, serialize msg)] }
  else
    { s with messages := s.messages ++ [(t, msg)] }

/-- `setMode` (accounts.ts lines 116-119): flush first, then install the new
mode. -/
def setMode (toHex : A → String) (serialize : M → B) (s : ProxyState A M B)
    (m : P2PMode) : ProxyState A M B :=
  { flush toHex serialize s with mode := m }

/-! ## Event aggregator: accumulation and replay (claim C4) -/

/-- RxJS `scan((a, e) => a.concat([e]), [])` (accounts.ts line 100) started
from accumulator `acc`: one output (the new accumulated list) per input
event; the seed itself is not emitted. -/
def scanConcat (acc : List E) : List E → List (List E)
  | [] => []
  | e :: es => (acc ++ [e]) :: scanConcat (acc ++ [e]) es

/-- `collectEvents` (accounts.ts lines 98-101) as the sequence of accumulated
event lists it delivers (`shareReplay(1)` changes subscription behaviour, not
this delivered sequence). -/
def collectEvents (es : List E) : List (List E) :=
  scanConcat [] es

/-- What a subscriber attaching to `collectEvents` *after* the events `pre`
have been delivered, and before the further events `post`, receives:
`shareReplay(1)` first replays the latest already-emitted accumulated list
(when there is one), then the subscriber sees the accumulated list for each
later event. -/
def lateSubscriberView (pre post : List E) : List (List E) :=
  match (collectEvents pre).getLast? with
  | none => scanConcat [] post
  | some h => h :: scanConcat pre post

/-! ## Event aggregator: subscription multicast (claim C5) -/

/-- A cold-observable expression over identified raw sources (`raw i`), with
`mapO` for value transformations, binary `merge`, `tap c` for a side-effecting
callback (RxJS `do` / an emitter handler registration) with identifier `c`,
and `share` for the multicast of `shareReplay`: subscribing `share o` any
positive number of times subscribes `o` exactly once. -/
inductive Obs where
  | raw : Nat → Obs
  | mapO : Obs → Obs
  | merge : Obs → Obs → Obs
  | tap : Nat → Obs → Obs
  | share : Obs → Obs

/-- Whether raw source `j` occurs in the expression (an event of source `j`
flows through it). -/
def containsRaw : Obs → Nat → Bool
  | .raw i, j => i == j
  | .mapO o, j => containsRaw o j
  | .merge a b, j => containsRaw a j || containsRaw b j
  | .tap _ o, j => containsRaw o j
  | .share o, j => containsRaw o j

/-- How many subscriptions raw source `j` receives when the expression is
subscribed `n` times: a cold chain re-subscribes its sources per subscriber,
`share` collapses any positive subscriber count to one upstream
subscription. -/
def rawSubs : Obs → Nat → Nat → Nat
  | .raw i, j, n => if i == j then n else 0
  | .mapO o, j, n => rawSubs o j n
  | .merge a b, j, n => rawSubs a j n + rawSubs b j n
  | .tap _ o, j, n => rawSubs o j n
  | .share o, j, n => rawSubs o j (min n 1)

/-- How many times callback `c` runs per single event of raw source `j`, when
the expression is subscribed `n` times: a `tap c` node runs its callback once
per event per subscription of that node, and `share` again collapses the
subscriber count seen upstream. -/
def cbRuns : Obs → Nat → Nat → Nat → Nat
  | .raw _, _, _, _ => 0
  | .mapO o, c, j, n => cbRuns o c j n
  | .merge a b, c, j, n => cbRuns a c j n + cbRuns b c j n
  | .tap c2 o, c, j, n => (if c2 == c && containsRaw o j then n else 0) + cbRuns o c j n
  | .share o, c, j, n => cbRuns o c j (min n 1)

/-- Raw source identifier: the blockchain event feed
(`blockchain.monitoring.asStream('*')`, accounts.ts line 163). -/
def srcBlockchainEvents : Nat := 0

/-- Raw source identifier: the peer inbound-message feed
(`Observable.fromEvent(p2p, 'message-received')`, accounts.ts line 171). -/
def srcP2PMessages : Nat := 1

/-- Raw source identifier: the block-number feed
(`blockchain.monitoring.blockNumbers()`, accounts.ts line 180). -/
def srcBlockNumbers : Nat := 2

/-- Callback identifier: `engine.onBlock` (accounts.ts line 192). -/
def cbOnBlock : Nat := 10

/-- Callback identifier: `engine.onBlockchainEvent` (accounts.ts line 196). -/
def cbOnBlockchainEvent : Nat := 11

/-- Callback identifier: `engine.onMessage` (accounts.ts line 197). -/
def cbOnMessage : Nat := 12

/-- The merged, shared event log (accounts.ts lines 162-186):
`collectEvents(Observable.merge(bcEvents.map(...), p2pMsgs.map(...),
blockNumbers.map(...)))`; `collectEvents`' `scan` is a value transformation
(`mapO`) and its `shareReplay(1)` the multicast (`share`). -/
def eventsObs : Obs :=
  .share (.mapO (.merge (.mapO (.raw srcBlockchainEvents))
    (.merge (.mapO (.raw srcP2PMessages)) (.mapO (.raw srcBlockNumbers)))))

/-- The engine block-driving chain (accounts.ts lines 191-194):
`blockchain.monitoring.blockNumbers().do(bn => engine.onBlock(bn))`,
subscribed exactly once at initialization. -/
def onBlockChain : Obs := .tap cbOnBlock (.raw srcBlockNumbers)

/-- The emitter registration `blockchain.monitoring.on('*',
engine.onBlockchainEvent)` (accounts.ts line 196), one persistent
handler. -/
def onBcEventChain : Obs := .tap cbOnBlockchainEvent (.raw srcBlockchainEvents)

/-- The emitter registration `p2p.on('message-received', msg =>
engine.onMessage(...))` (accounts.ts line 197), one persistent handler. -/
def onMessageChain : Obs := .tap cbOnMessage (.raw srcP2PMessages)

/-- Subscriptions received by raw source `j` from the aggregator's merged
event log when `n` external consumers subscribe to it: the log is also
subscribed once internally at initialization (accounts.ts lines 189-190), so
the shared expression has `n + 1` subscribers. -/
def aggregatorRawSubs (j n : Nat) : Nat :=
  rawSubs eventsObs j (n + 1)

/-- Total runs of engine callback `c` per single event of raw source `j`, with
`n` external subscribers on the merged log: the merged log itself contains no
engine taps; `onBlock` runs via its own single subscription, and
`onBlockchainEvent` / `onMessage` via their single emitter registrations. -/
def engineCbRuns (c j n : Nat) : Nat :=
  cbRuns eventsObs c j (n + 1) + cbRuns onBlockChain c j 1 +
    cbRuns onBcEventChain c j 1 + cbRuns onMessageChain c j 1

/-! ## Account initializer readiness (claim C6) -/

/-- Pointwise zip of three lists, the length of the shortest: RxJS `zip`
pairs the i-th emissions of its inputs, so its first combined emission exists
exactly when every input has emitted at least once. -/
def zip3 : List α → List β → List γ → List (α × β × γ)
  | a :: la, b :: lb, c :: lc => (a, b, c) :: zip3 la lb lc
  | _, _, _ => []

/-- The readiness zip of `initAccount` (accounts.ts lines 208-218): transport
status events filtered to `'connected'` and capped by `take(1)`, the initial
block-number fetch capped by `take(1)`, and the initial balance fetch, zipped;
each emission of the zip resolves the handle (`mapTo`, embedded as `Unit`). -/
def initReadyEmissions (statuses : List String) (blockFetches : List Nat)
    (balanceFetches : List Nat) : List Unit :=
  (zip3 ((statuses.filter (fun s => s == "connected")).take 1)
    (blockFetches.take 1) balanceFetches).map (fun _ => ())

/-! ## Session manager: incremental initialization (claim C7) -/

/-- The filter of `accounts` (accounts.ts line 244):
`cfg.userAccounts.filter(a => !inited.find(i => i.owner.addressStr ===
a.address))` — the configured addresses with no already-initialized account of
the same address string. -/
def notYetInited (inited cfgAddrs : List String) : List String :=
  cfgAddrs.filter (fun a => !(inited.any (fun i => i == a)))

/-- One configuration-change step of the session manager (accounts.ts lines
242-248): initialize exactly the not-yet-initialized configured addresses (the
account initializer is invoked via `mergeMap` once per such address) and push
each onto `inited`.  Returns the new initialized list and the list of
addresses the initializer was invoked on, in order. -/
def sessionStep (inited cfgAddrs : List String) : List String × List String :=
  (inited ++ notYetInited inited cfgAddrs, notYetInited inited cfgAddrs)

/-! ## Inbound message dispatch (claim C8) -/

/-- Observable side effects of dispatching inbound `'message-received'`
notifications: the engine `onMessage` invocations (with decoded messages, in
order), the count of caught handler errors (surfaced as `'callback-error'`
warnings, accounts.ts lines 204-206), and the raw messages delivered into the
merged event stream's P2P branch (accounts.ts lines 171-177), in order.
`R` is the raw message type, `M` the decoded message type. -/
structure DispatchState (R M : Type) where
  onMessageCalls : List M
  callbackErrors : Nat
  streamEvents : List R
deriving Repr

/-- The empty dispatch state: nothing received yet. -/
def initialDispatch (R M : Type) : DispatchState R M :=
  { onMessageCalls := [], callbackErrors := 0, streamEvents := [] }

/-- Modelled from the spec: the peer transport's emitter dispatch (in the
external `go-network-framework`, not in this repository) catches an exception
thrown by a registered handler and emits it as a `'callback-error'`
notification — per the spec, a deserialization failure "must not crash the
aggregator; the malformed message is dropped and logged, and the merged event
stream continues".  One inbound raw message is dispatched to the handler of
accounts.ts line 197 (`engine.onMessage(message.deserializeAndDecode(msg))`,
whose deserialization failure — `deserialize msg = none` — is caught and
logged instead of reaching the engine) and to the merged event stream's P2P
branch, which wraps the raw message without deserializing it. -/
def handleMessageReceived (deserialize : R → Option M) (st : DispatchState R M)
    (msg : R) : DispatchState R M :=
  let st1 :=
    match deserialize msg with
    | some m => { st with onMessageCalls := st.onMessageCalls ++ [m] }
    | none => { st with callbackErrors := st.callbackErrors + 1 }
  { st1 with streamEvents := st1.streamEvents ++ [msg] }

/-- Dispatch of a whole inbound message sequence, in arrival order. -/
def processMessages (deserialize : R → Option M) (msgs : List R) :
    DispatchState R M :=
  msgs.foldl (handleMessageReceived deserialize) (initialDispatch R M)

/-! ## Merged balances pipeline (claims C2, C9) -/

/-- The `pairwise().switchMap(...)` stage of the merged balances pipeline
(accounts.ts lines 304-320), flattened into its delivered sequence.  The
tracker's deduplicated readings arrive after a `startWith(undefined)`, so the
first pair has no previous reading (`prev = none`) and delivers the plain
first reading; every later pair `(a, b)` delivers the delta-decorated `b`
immediately and — `Observable.of(b).delay(5000).startWith(d)` under
`switchMap` — the plain `b` only if the 5-second settling delay elapses before
the next reading switches the inner observable away, which the oracle
`settle i` records for the reading of index `i`. -/
def switchFlatten (settle : Nat → Bool) :
    Option AccountBalanceFormatted → Nat → List AccountBalanceFormatted →
    List AccountBalanceFormatted
  | _, _, [] => []
  | none, i, b :: rest => b :: switchFlatten settle (some b) (i + 1) rest
  | some a, i, b :: rest =>
    decorate a b :: ((if settle i then [b] else []) ++ switchFlatten settle (some b) (i + 1) rest)

/-- The tracker readings each emission of `switchFlatten` reflects: the
reading of index `i` appears once (its delta view; plus the plain reading when
the settling delay elapsed), except the first reading, which appears plainly
once.  `started` tracks whether a previous reading exists. -/
def readingTimeline (settle : Nat → Bool) :
    Bool → Nat → List AccountBalanceFormatted → List AccountBalanceFormatted
  | _, _, [] => []
  | false, i, r :: rest => r :: readingTimeline settle true (i + 1) rest
  | true, i, r :: rest =>
    r :: ((if settle i then [r] else []) ++ readingTimeline settle true (i + 1) rest)

/-- The per-account record stream fed into the merged scan (accounts.ts lines
300-322): the trailing `startWith(undefined)` (line 321) first contributes the
account's address keyed to `undefined`, then each delivered reading (plain or
delta-decorated) is keyed to the address by
`map(b => ({ [acc.owner.addressStr]: b }))`. -/
def accountRecords (settle : Nat → Bool) (addr : String)
    (readings : List AccountBalanceFormatted) :
    List (String × Option AccountBalanceFormatted) :=
  (addr, none) :: (switchFlatten settle none 0 readings).map (fun b => (addr, some b))

/-- A JavaScript object keyed by address strings, as observed through key
lookup: `none` is an absent key, `some none` a key present with value
`undefined`. -/
def JSObj : Type :=
  String → Option (Option AccountBalanceFormatted)

/-- The empty object `{}` seeding the merged scan (accounts.ts line 324). -/
def emptyObj : JSObj := fun _ => none

/-- `Object.assign({}, bs, b)` for a single-key record `b = { [k]: v }`
(accounts.ts line 324): key `k` is now present with value `v` (also when `v`
is `undefined`), every other key is untouched. -/
def assignKey (m : JSObj) (k : String) (v : Option AccountBalanceFormatted) :
    JSObj :=
  fun q => if q = k then some v else m q

/-- The merged balance map after the scan (accounts.ts lines 323-324) has
consumed the interleaved per-account records `recs`. -/
def mergedMap (recs : List (String × Option AccountBalanceFormatted)) : JSObj :=
  recs.foldl (fun m r => assignKey m r.1 r.2) emptyObj

/-! ## Theorems -/

/-- The comparator handed to `distinctUntilChanged` returns `true` exactly
when the two formatted readings agree on all three quantities under exact
per-quantity equality. -/
theorem isBalanceChanged_iff (a b : AccountBalanceFormatted) :
    isBalanceChanged a.toBalance b.toBalance = true
      ↔ (a.wei = b.wei ∧ a.gotToken = b.gotToken ∧ a.hsToken = b.hsToken) := by
  simp only [isBalanceChanged, List.foldl_cons, List.foldl_nil,
    AccountBalanceFormatted.toBalance, AccountBalance.getKey, Bool.false_or,
    Bool.not_eq_true', Bool.or_eq_false_iff, Bool.not_eq_false, beq_iff_eq,
    Bool.not_eq_true_eq_eq_false, Bool.not_eq_false_eq_eq_true]
  tauto

/-- Stepping the deduplication with last emitted reading `l` agrees with the
spec-side emission rule. -/
theorem dedupFrom_eq_spec (xs : List AccountBalanceFormatted)
    (l : AccountBalanceFormatted) :
    distinctUntilChangedFrom (fun a b => isBalanceChanged a.toBalance b.toBalance) l xs
      = specDedup (some l) xs := by
  induction xs generalizing l with
  | nil => rfl
  | cons x rest ih =>
    by_cases h : l.wei = x.wei ∧ l.gotToken = x.gotToken ∧ l.hsToken = x.hsToken
    · rw [distinctUntilChangedFrom, if_pos ((isBalanceChanged_iff l x).mpr h),
        specDedup, if_pos h, ih]
    · rw [distinctUntilChangedFrom, if_neg (fun hc => h ((isBalanceChanged_iff l x).mp hc)),
        specDedup, if_neg h, ih]

/-- C1.  For every sequence of balance readings delivered to one account's
balance pipeline, the deduplicated stream (`distinctUntilChanged` with the
`isBalanceChanged` comparator) coincides with the spec-side rule `specDedup`:
a reading is emitted iff at least one of the three quantities (wei, gotToken,
hsToken) differs, under exact per-quantity equality, from the last *emitted*
reading (the first reading, with no last emitted reading, is emitted); a
reading all of whose three quantities equal the last emitted reading is never
emitted. -/
theorem C1_dedup_iff_quantity_changed (xs : List AccountBalanceFormatted) :
    dedupBalances xs = specDedup none xs := by
  cases xs with
  | nil => rfl
  | cons x rest =>
    rw [dedupBalances, distinctUntilChanged, specDedup, dedupFrom_eq_spec]

/-- C2, counterexample.  For previous reading `(wei=100, gotToken=5,
hsToken=5)` and new reading `(wei=150, gotToken=5, hsToken=3)`, the delta
record computed by the merged balances pipeline is *not* the claimed
`{eth: "+0.00000000000000005", got: undefined, hs: "-2"}`: `weiToEthString`
divides by `10^18` with BN integer division, so the wei difference `50` scales
to `"0"`, not to a fractional decimal string. -/
theorem C2_counterexample :
    ¬ ((decorate (formatBalance 1 ⟨5, 5, 100⟩) (formatBalance 2 ⟨5, 3, 150⟩)).delta
        = { eth := some "+0.00000000000000005", got := none, hs := some "-2" }) := by
  decide

/-- C2, amended.  For previous reading `(wei=100, gotToken=5, hsToken=5)` and
new reading `(wei=150, gotToken=5, hsToken=3)`, the delta record computed by
the merged balances pipeline is exactly `{eth: "+0", got: undefined,
hs: "-2"}`: the native-currency delta is the wei difference integer-divided by
`10^18` (the fractional part is dropped) with a leading `+`, the unchanged
token's delta is omitted, and the decreasing token's delta keeps a single
leading `-` with no `+`. -/
theorem C2_delta_formatting :
    (decorate (formatBalance 1 ⟨5, 5, 100⟩) (formatBalance 2 ⟨5, 3, 150⟩)).delta
      = { eth := some "+0", got := none, hs := some "-2" } := by
  decide

/-- C3.  After `setMode('manual')` followed by exactly three `send(to, msg)`
calls and then `flush()`, starting from a fresh proxy: the transport's raw
send primitive has been invoked exactly three times, in the same order as the
`send` calls, with exactly the three queued `(to, message)` pairs (serialized
as the transport receives them), and the pending queue is empty after the
flush. -/
theorem C3_manual_send_flush (A M B : Type) (toHex : A → String)
    (serialize : M → B) (t1 t2 t3 : A) (m1 m2 m3 : M) :
    (flush toHex serialize
      (proxySend toHex serialize
        (proxySend toHex serialize
          (proxySend toHex serialize
            (setMode toHex serialize (createP2PProxy A M B) .manual) t1 m1)
          t2 m2)
        t3 m3)).rawSent
      = [(toHex t1, serialize m1), (toHex t2, serialize m2), (toHex t3, serialize m3)]
    ∧ (flush toHex serialize
        (proxySend toHex serialize
          (proxySend toHex serialize
            (proxySend toHex serialize
              (setMode toHex serialize (createP2PProxy A M B) .manual) t1 m1)
            t2 m2)
          t3 m3)).messages = [] :=
  ⟨rfl, rfl⟩

/-- C10.  Every reading emitted by an account handle's own per-account balance
stream carries an empty delta record: the deltas are computed only in the
session manager's merged balances pipeline, so a consumer reading the handle's
balance stream directly never observes a populated delta. -/
theorem C10_handle_delta_always_empty (batches : List (Nat × BalanceQueryResult))
    (f : AccountBalanceFormatted) (h : some f ∈ balance batches) :
    f.delta = {} := by
  rcases List.mem_cons.mp h with h0 | h1
  · exact absurd h0 (by simp)
  · rcases List.mem_map.mp h1 with ⟨p, _, hp⟩
    have : formatBalance p.1 p.2 = f := Option.some.inj hp
    rw [← this]
    rfl

/-- Witness for C10 at a concrete query batch. -/
theorem C10_witness :
    some (formatBalance 7 ⟨1, 2, 3⟩) ∈ balance [(7, ⟨1, 2, 3⟩)]
    ∧ (formatBalance 7 ⟨1, 2, 3⟩).delta = {} :=
  ⟨by decide, C10_handle_delta_always_empty [(7, ⟨1, 2, 3⟩)] _ (by decide)⟩

/-- C5.  For any number `n ≥ 0` of subscribers attached to one account's
merged event log, each underlying raw source (blockchain event feed, peer
inbound-message feed, block-number feed) receives exactly one subscription
from the aggregator (the shared log is multicast: its one internal
subscription plus the `n` consumers collapse to a single upstream
subscription of each source), and per underlying event the engine's
`onBlock` / `onBlockchainEvent` / `onMessage` callback runs exactly once,
independent of `n`. -/
theorem C5_multicast_once (n : Nat) :
    aggregatorRawSubs srcBlockchainEvents n = 1
    ∧ aggregatorRawSubs srcP2PMessages n = 1
    ∧ aggregatorRawSubs srcBlockNumbers n = 1
    ∧ engineCbRuns cbOnBlock srcBlockNumbers n = 1
    ∧ engineCbRuns cbOnBlockchainEvent srcBlockchainEvents n = 1
    ∧ engineCbRuns cbOnMessage srcP2PMessages n = 1 := by
  have hmin : min (n + 1) 1 = 1 := Nat.min_eq_right (Nat.succ_le_succ (Nat.zero_le n))
  refine ⟨?_, ?_, ?_, ?_, ?_, ?_⟩ <;>
    simp [aggregatorRawSubs, engineCbRuns, rawSubs, cbRuns, eventsObs, onBlockChain,
      onBcEventChain, onMessageChain, containsRaw, srcBlockchainEvents, srcP2PMessages,
      srcBlockNumbers, cbOnBlock, cbOnBlockchainEvent, cbOnMessage, hmin]

/-- `zip3` delivers nothing exactly when one of its inputs delivers
nothing. -/
theorem zip3_eq_nil_iff (la : List α) (lb : List β) (lc : List γ) :
    zip3 la lb lc = [] ↔ la = [] ∨ lb = [] ∨ lc = [] := by
  cases la <;> cases lb <;> cases lc <;> simp [zip3]

/-- The `'connected'` status filter delivers nothing exactly when the
transport never reports `'connected'`. -/
theorem filter_connected_eq_nil (statuses : List String) :
    statuses.filter (fun s => s == "connected") = [] ↔ "connected" ∉ statuses := by
  induction statuses with
  | nil => simp
  | cons s rest ih =>
    by_cases h : s = "connected" <;> simp [List.filter_cons, h, ih, Ne.symm]

/-- C6.  The account handle returned by the initializer resolves iff all three
of the following have each completed at least once: the transport reports
`'connected'`, the initial block-number fetch resolves, and the initial
balance fetch resolves; in particular, for a transport that never reports
`'connected'` the handle never resolves, regardless of the other two
completing. -/
theorem C6_ready_iff_all_three (statuses : List String)
    (blockFetches balanceFetches : List Nat) :
    initReadyEmissions statuses blockFetches balanceFetches ≠ []
      ↔ ("connected" ∈ statuses ∧ blockFetches ≠ [] ∧ balanceFetches ≠ []) := by
  rw [Ne, initReadyEmissions, List.map_eq_nil_iff, zip3_eq_nil_iff]
  rw [List.take_eq_nil_iff, List.take_eq_nil_iff, filter_connected_eq_nil]
  have h10 : ¬((1 : Nat) = 0) := one_ne_zero
  tauto

/-- C7.  For every configuration change, the session manager invokes the
account initializer exactly on the configured addresses not already present
among the initialized accounts (matched by address string) and on no others;
concretely, for a configuration listing `[A, B]` then updated to
`[A, B, C]`, the first step initializes exactly `A` and `B` and the second
step exactly `C` (one initializer invocation; `A` and `B` are not
reinitialized). -/
theorem C7_initialize_exactly_new :
    (∀ inited cfgAddrs a,
      a ∈ (sessionStep inited cfgAddrs).2 ↔ (a ∈ cfgAddrs ∧ a ∉ inited))
    ∧ (sessionStep [] ["A", "B"]).2 = ["A", "B"]
    ∧ (sessionStep (sessionStep [] ["A", "B"]).1 ["A", "B", "C"]).2 = ["C"] := by
  refine ⟨?_, by decide, by decide⟩
  intro inited cfg a
  simp only [sessionStep, notYetInited, List.mem_filter, List.any_eq_true,
    Bool.not_eq_true', Bool.not_eq_false, beq_iff_eq, not_exists]
  constructor
  · rintro ⟨hc, hni⟩
    refine ⟨hc, fun ha => ?_⟩
    have hany : (inited.any fun i => i == a) = true :=
      List.any_eq_true.mpr ⟨a, ha, beq_iff_eq.mpr rfl⟩
    rw [hany] at hni
    exact Bool.noConfusion hni
  · rintro ⟨hc, hni⟩
    refine ⟨hc, ?_⟩
    by_contra hb
    have : inited.any (fun i => i == a) = true := by
      cases h : inited.any (fun i => i == a) with
      | true => rfl
      | false => exact absurd h (by simpa using hb)
    rcases List.any_eq_true.mp this with ⟨x, hx, hxa⟩
    exact hni (beq_iff_eq.mp hxa ▸ hx)

/-- Dispatching inbound messages from any starting state appends: the engine
sees exactly the successfully decoded messages, each decode failure is caught
and counted as a `'callback-error'` warning, and the merged stream's P2P
branch receives every raw message. -/
theorem processMessages_foldl (deserialize : R → Option M) (msgs : List R)
    (st : DispatchState R M) :
    msgs.foldl (handleMessageReceived deserialize) st =
      { onMessageCalls := st.onMessageCalls ++ msgs.filterMap deserialize
      , callbackErrors :=
          st.callbackErrors + (msgs.filter (fun m => (deserialize m).isNone)).length
      , streamEvents := st.streamEvents ++ msgs } := by
  induction msgs generalizing st with
  | nil => simp
  | cons m rest ih =>
    rw [List.foldl_cons, ih]
    cases h : deserialize m <;>
      simp [handleMessageReceived, h, List.filterMap_cons, List.filter_cons,
        Nat.add_assoc, Nat.add_comm 1]

/-- C8.  For every inbound peer message whose deserialization fails, the event
aggregator does not crash: the malformed message is dropped (the engine's
`onMessage` is invoked exactly on the successfully decoded messages, in
order) and logged (one `'callback-error'` warning per failure), and the
merged event stream's P2P branch still delivers every message, so subsequent
events keep flowing. -/
theorem C8_malformed_message_dropped (R M : Type) (deserialize : R → Option M)
    (msgs : List R) :
    (processMessages deserialize msgs).streamEvents = msgs
    ∧ (processMessages deserialize msgs).onMessageCalls = msgs.filterMap deserialize
    ∧ (processMessages deserialize msgs).callbackErrors
        = (msgs.filter (fun m => (deserialize m).isNone)).length := by
  rw [processMessages, processMessages_foldl]
  exact ⟨by simp [initialDispatch], by simp [initialDispatch], by simp [initialDispatch]⟩

/-- The scan delivers one accumulated list per event. -/
theorem scanConcat_length (acc es : List E) :
    (scanConcat acc es).length = es.length := by
  induction es generalizing acc with
  | nil => rfl
  | cons e rest ih => simp [scanConcat, ih]

/-- The `i`-th accumulated list delivered by the scan is the accumulator
followed by the first `i + 1` events, in append order. -/
theorem scanConcat_getD (acc es : List E) (i : Nat) (h : i < es.length) :
    (scanConcat acc es).getD i [] = acc ++ es.take (i + 1) := by
  induction es generalizing acc i with
  | nil => exact absurd h (Nat.not_lt_zero i)
  | cons e rest ih =>
    cases i with
    | zero => simp [scanConcat]
    | succ j =>
      have hj : j < rest.length := Nat.lt_of_succ_lt_succ h
      rw [scanConcat, List.getD_cons_succ, ih (acc ++ [e]) j hj,
        List.take_succ_cons, List.append_assoc, List.singleton_append]

/-- The last accumulated list delivered by the scan holds every event. -/
theorem scanConcat_getLast? (acc es : List E) (h : es ≠ []) :
    (scanConcat acc es).getLast? = some (acc ++ es) := by
  induction es generalizing acc with
  | nil => exact absurd rfl h
  | cons e rest ih =>
    cases rest with
    | nil => simp [scanConcat]
    | cons r rs =>
      rw [scanConcat, scanConcat, List.getLast?_cons_cons, ← scanConcat,
        ih (acc ++ [e]) (List.cons_ne_nil r rs)]
      simp

/-- C4.  A subscriber that attaches to an account's merged event log after the
events `pre` have already been emitted (at least one) receives first the full
accumulated history — all prior events, in append order — and only then the
accumulated lists for the newly arriving events `post`; the `i`-th later
delivery still holds every prior event followed by the first `i + 1` new
events, so no event is ever dropped from the log while the subscriber is
attached. -/
theorem C4_late_subscriber_replay (pre post : List E) (h : pre ≠ []) :
    (lateSubscriberView pre post).head? = some pre
    ∧ (lateSubscriberView pre post).length = post.length + 1
    ∧ ∀ i, i < post.length →
        (lateSubscriberView pre post).getD (i + 1) [] = pre ++ post.take (i + 1) := by
  have hlast : (collectEvents pre).getLast? = some pre := by
    rw [collectEvents, scanConcat_getLast? [] pre h, List.nil_append]
  rw [lateSubscriberView, hlast]
  refine ⟨rfl, by simp [scanConcat_length], ?_⟩
  intro i hi
  simp only [List.getD_cons_succ]
  exact scanConcat_getD pre post i hi

/-- Witness for C4: a subscriber attaching after five events and before two
further ones. -/
theorem C4_witness :
    ([0, 1, 2, 3, 4] : List Nat) ≠ []
    ∧ ((lateSubscriberView [0, 1, 2, 3, 4] [5, 6]).head? = some [0, 1, 2, 3, 4]
      ∧ (lateSubscriberView [0, 1, 2, 3, 4] [5, 6]).length = [5, 6].length + 1
      ∧ ∀ i, i < [5, 6].length →
          (lateSubscriberView [0, 1, 2, 3, 4] [5, 6]).getD (i + 1) []
            = [0, 1, 2, 3, 4] ++ [5, 6].take (i + 1)) :=
  ⟨by decide, C4_late_subscriber_replay [0, 1, 2, 3, 4] [5, 6] (by decide)⟩

/-- Consing onto a nonempty list keeps its last element. -/
theorem getLast?_cons_of_ne_nil (x : α) (l : List α) (h : l ≠ []) :
    (x :: l).getLast? = l.getLast? := by
  cases l with
  | nil => exact absurd rfl h
  | cons y ys => exact List.getLast?_cons_cons

/-- The timeline of a nonempty reading list is nonempty. -/
theorem readingTimeline_ne_nil (settle : Nat → Bool) (st : Bool) (i : Nat)
    (rs : List AccountBalanceFormatted) (h : rs ≠ []) :
    readingTimeline settle st i rs ≠ [] := by
  cases rs with
  | nil => exact absurd rfl h
  | cons r rest => cases st <;> simp [readingTimeline]

/-- The last entry of the timeline is the last tracker reading: once the
settling runs out, the map holds the plain most recent reading. -/
theorem readingTimeline_getLast? (settle : Nat → Bool)
    (rs : List AccountBalanceFormatted) :
    ∀ (st : Bool) (i : Nat), rs ≠ [] →
      (readingTimeline settle st i rs).getLast? = rs.getLast? := by
  induction rs with
  | nil => intro st i h; exact absurd rfl h
  | cons r rest ih =>
    intro st i h
    cases rest with
    | nil =>
      cases st with
      | false => rfl
      | true => cases hs : settle i <;> simp [readingTimeline, hs]
    | cons r2 rs2 =>
      have hne : (r2 :: rs2) ≠ [] := List.cons_ne_nil _ _
      have hT := readingTimeline_ne_nil settle true (i + 1) (r2 :: rs2) hne
      cases st with
      | false =>
        rw [readingTimeline, getLast?_cons_of_ne_nil _ _ hT, ih true (i + 1) hne,
          getLast?_cons_of_ne_nil r _ hne]
      | true =>
        have htail : ((if settle i then [r] else [])
            ++ readingTimeline settle true (i + 1) (r2 :: rs2)) ≠ [] := by
          cases settle i <;> simp [hT]
        rw [readingTimeline, getLast?_cons_of_ne_nil _ _ htail,
          List.getLast?_append_of_ne_nil _ hT, ih true (i + 1) hne,
          getLast?_cons_of_ne_nil r _ hne]

/-- The merged scan from any starting object: the value under a key is the
most recent record for that key, or the starting object's value when no
record carries it. -/
theorem assignKey_foldl (recs : List (String × Option AccountBalanceFormatted))
    (m : JSObj) (q : String) :
    (recs.foldl (fun m r => assignKey m r.1 r.2) m) q
      = match recs.reverse.find? (fun p => p.1 == q) with
        | some p => some p.2
        | none => m q := by
  induction recs generalizing m with
  | nil => rfl
  | cons r rest ih =>
    rw [List.foldl_cons, ih, List.reverse_cons, List.find?_append]
    cases hf : rest.reverse.find? (fun p => p.1 == q) with
    | some x => rfl
    | none =>
      by_cases hq : q = r.1
      · subst hq
        simp [Option.or, List.find?, assignKey]
      · have hbq : (r.1 == q) = false := by
          simp only [beq_eq_false_iff_ne, Ne]
          exact fun he => hq he.symm
        simp [Option.or, List.find?, hbq, assignKey, hq]

/-- The merged balance map's value at an address is the most recent record
emitted for that address (and the key is absent exactly when no record for
the address has arrived). -/
theorem mergedMap_eq_latest (recs : List (String × Option AccountBalanceFormatted))
    (q : String) :
    mergedMap recs q = (recs.reverse.find? (fun p => p.1 == q)).map Prod.snd := by
  rw [mergedMap, assignKey_foldl]
  cases hf : recs.reverse.find? (fun p => p.1 == q) with
  | some x => rfl
  | none => rfl

/-- Decorating a reading with a delta record does not change its underlying
reading. -/
theorem eraseDelta_decorate (a b : AccountBalanceFormatted) :
    eraseDelta (decorate a b) = eraseDelta b := rfl

/-- After the first reading, the flattened delta-view stage reflects exactly
the timeline of tracker readings. -/
theorem switchFlatten_erase_some (settle : Nat → Bool)
    (rs : List AccountBalanceFormatted) :
    ∀ (a : AccountBalanceFormatted) (i : Nat),
      (switchFlatten settle (some a) i rs).map eraseDelta
        = (readingTimeline settle true i rs).map eraseDelta := by
  induction rs with
  | nil => intro a i; rfl
  | cons b rest ih =>
    intro a i
    rw [switchFlatten, readingTimeline]
    cases hs : settle i <;>
      simp [hs, ih b (i + 1), eraseDelta_decorate]

/-- The flattened delta-view stage reflects exactly the timeline of tracker
readings: each emission is the (possibly delta-decorated) reading the tracker
most recently emitted, in emission order. -/
theorem switchFlatten_erase (settle : Nat → Bool)
    (rs : List AccountBalanceFormatted) :
    (switchFlatten settle none 0 rs).map eraseDelta
      = (readingTimeline settle false 0 rs).map eraseDelta := by
  cases rs with
  | nil => rfl
  | cons b rest =>
    rw [switchFlatten, readingTimeline]
    simp [switchFlatten_erase_some settle rest b 1]

/-- Every record of one account's pipeline carries that account's address as
its only key. -/
theorem accountRecords_keys (settle : Nat → Bool) (addr : String)
    (rs : List AccountBalanceFormatted)
    (r : String × Option AccountBalanceFormatted)
    (hr : r ∈ accountRecords settle addr rs) : r.1 = addr := by
  rcases List.mem_cons.mp hr with h0 | h1
  · rw [h0]
  · rcases List.mem_map.mp h1 with ⟨b, _, hb⟩
    rw [← hb]

/-- C9, counterexample.  The claim says that before an account's first reading
the address is absent from the merged balance map (no key for it); but with a
single tracked account `"a"` whose tracker has emitted no reading at all, the
account pipeline's initial `startWith(undefined)` record already puts the key
`"a"` into the map, bound to `undefined`: the key is present, not absent. -/
theorem C9_counterexample :
    mergedMap (accountRecords (fun _ => true) "a" []) "a" ≠ none
    ∧ mergedMap (accountRecords (fun _ => true) "a" []) "a" = some none :=
  ⟨by decide, by decide⟩

/-- C9, amended.  In the merged balance map published by the session manager,
the value under an address's key is the value of the most recent record
emitted by that account's pipeline — the key is absent exactly while no record
for that address has arrived, is bound to `undefined` (not absent) from the
pipeline's initial placeholder until the first reading, and afterwards holds a
possibly delta-decorated form of the tracker's most recently emitted formatted
reading (the plain reading once the settling delay runs out); each pipeline
record carries only its own account's address, so each tracker emission
updates only that account's entry. -/
theorem C9_merged_map_amended
    (recs : List (String × Option AccountBalanceFormatted)) (q : String)
    (settle : Nat → Bool) (addr : String)
    (rs : List AccountBalanceFormatted)
    (r : String × Option AccountBalanceFormatted)
    (hr : r ∈ accountRecords settle addr rs) :
    mergedMap recs q = (recs.reverse.find? (fun p => p.1 == q)).map Prod.snd
    ∧ (accountRecords settle addr rs).head? = some (addr, none)
    ∧ r.1 = addr
    ∧ (switchFlatten settle none 0 rs).map eraseDelta
        = (readingTimeline settle false 0 rs).map eraseDelta
    ∧ (rs ≠ [] →
        (readingTimeline settle false 0 rs).getLast? = rs.getLast?) :=
  ⟨mergedMap_eq_latest recs q, rfl, accountRecords_keys settle addr rs r hr,
    switchFlatten_erase settle rs, readingTimeline_getLast? settle rs false 0⟩

/-- Witness for C9 at one tracked account with one reading. -/
theorem C9_witness :
    (("a", (none : Option AccountBalanceFormatted))
        ∈ accountRecords (fun _ => true) "a" [formatBalance 1 ⟨5, 5, 100⟩])
    ∧ (mergedMap [("a", some (formatBalance 1 ⟨5, 5, 100⟩))] "a"
        = (([("a", some (formatBalance 1 ⟨5, 5, 100⟩))].reverse.find?
            (fun p => p.1 == "a")).map Prod.snd)
      ∧ (accountRecords (fun _ => true) "a" [formatBalance 1 ⟨5, 5, 100⟩]).head?
          = some ("a", none)
      ∧ ("a", (none : Option AccountBalanceFormatted)).1 = "a"
      ∧ (switchFlatten (fun _ => true) none 0 [formatBalance 1 ⟨5, 5, 100⟩]).map eraseDelta
          = (readingTimeline (fun _ => true) false 0 [formatBalance 1 ⟨5, 5, 100⟩]).map eraseDelta
      ∧ ([formatBalance 1 ⟨5, 5, 100⟩] ≠ [] →
          (readingTimeline (fun _ => true) false 0 [formatBalance 1 ⟨5, 5, 100⟩]).getLast?
            = [formatBalance 1 ⟨5, 5, 100⟩].getLast?)) :=
  ⟨by decide,
    C9_merged_map_amended [("a", some (formatBalance 1 ⟨5, 5, 100⟩))] "a"
      (fun _ => true) "a" [formatBalance 1 ⟨5, 5, 100⟩]
      ("a", (none : Option AccountBalanceFormatted)) (by decide)⟩

end GoNetwork
